import Mathlib

/-!
Verification development for the storage core of the aero kernel:
the AHCI DMA driver (drivers/ahci.rs) and the read-only ext2
filesystem reader (fs/ext2/mod.rs).

Conventions of the shallow embedding:
* machine integers (usize, u16, u32, u64) are modelled as `Nat`;
  wherever the Rust code could underflow or index out of bounds
  (a panic), the model returns `none` or takes a checked path;
* hardware memory (DMA frames, the disk) is modelled as total byte
  functions `Nat -> Nat`;
* loops are modelled as structurally recursive functions over an
  explicit iteration bound (fuel); for every modelled loop the bound
  chosen by the wrapper provably dominates the number of iterations
  the Rust loop performs, so the fuel-exhausted branch is unreachable
  for the wrapper.
-/

/-! ## DMA request splitter (drivers/ahci.rs, DmaRequest) -/

/-- Read is the only DMA command constructed in the source
(enum DmaCommand). -/
inductive DmaCommand where
  | Read
deriving DecidableEq

/-- One physically contiguous DMA region (struct DmaBuffer).
The start physical address is chosen by the frame allocator and is
not modelled; `data_size` and `huge` are computed exactly as in the
source. -/
structure DmaBuffer where
  data_size : Nat
  huge : Bool
deriving DecidableEq

/-- Loop body of DmaRequest::new: while size > 0, carve off a buffer
of data_size = min(size, 0x2000), marked huge when the remaining size
exceeds 0x1000, and subtract data_size from size.  The first argument
is an iteration bound; each iteration consumes at least one byte, so
a bound of `size` iterations is always sufficient. -/
def dmaSplitGo : Nat → Nat → List DmaBuffer
  | 0, _ => []
  | fuel + 1, size =>
    if size = 0 then []
    else
      { data_size := min size 0x2000, huge := decide (size > 0x1000) }
        :: dmaSplitGo fuel (size - min size 0x2000)

/-- The buffer list built by DmaRequest::new for a total of `size`
bytes (size = count * 512 at the call site). -/
def dmaSplit (size : Nat) : List DmaBuffer :=
  dmaSplitGo size size

/-- Model of struct DmaRequest (sector, count, buffer list, command). -/
structure DmaRequest where
  sector : Nat
  count : Nat
  buffer : List DmaBuffer
  command : DmaCommand
deriving DecidableEq

/-- DmaRequest::new(sector, count): total byte size is count * 512,
split into DMA buffers by the loop modelled by `dmaSplit`. -/
def DmaRequest.new (sector count : Nat) : DmaRequest :=
  { sector := sector
    count := count
    buffer := dmaSplit (count * 512)
    command := DmaCommand.Read }

/-- Combined loop invariant of the splitter, proved for any
sufficient fuel: the data sizes sum to the total, the number of
buffers is the ceiling of size / 0x2000, every buffer holds at most
0x2000 bytes, and a buffer is huge exactly when its own data size
exceeds 0x1000. -/
theorem dmaSplitGo_spec (fuel : Nat) :
    ∀ size : Nat, size ≤ fuel →
      ((dmaSplitGo fuel size).map (fun b => b.data_size)).sum = size
      ∧ (dmaSplitGo fuel size).length = (size + 8191) / 8192
      ∧ ∀ b ∈ dmaSplitGo fuel size,
          b.data_size ≤ 8192 ∧ (b.huge = true ↔ 4096 < b.data_size) := by
  induction fuel with
  | zero =>
    intro size hsize
    interval_cases size
    simp [dmaSplitGo]
  | succ fuel ih =>
    intro size hsize
    by_cases h0 : size = 0
    · subst h0
      simp [dmaSplitGo]
    · have hstep : size - min size 0x2000 ≤ fuel := by omega
      obtain ⟨ihsum, ihlen, ihmem⟩ := ih (size - min size 0x2000) hstep
      refine ⟨?_, ?_, ?_⟩
      · simp only [dmaSplitGo, if_neg h0, List.map_cons, List.sum_cons, ihsum]
        omega
      · simp only [dmaSplitGo, if_neg h0, List.length_cons, ihlen]
        omega
      · intro b hb
        simp only [dmaSplitGo, if_neg h0, List.mem_cons] at hb
        rcases hb with hb | hb
        · subst hb
          constructor
          · show min size 0x2000 ≤ 8192
            omega
          · show decide (size > 0x1000) = true ↔ 4096 < min size 0x2000
            simp only [decide_eq_true_eq]
            omega
        · exact ihmem b hb

/-- Helper restating the invariant for the wrapper `dmaSplit`. -/
theorem dmaSplit_spec (size : Nat) :
    ((dmaSplit size).map (fun b => b.data_size)).sum = size
    ∧ (dmaSplit size).length = (size + 8191) / 8192
    ∧ ∀ b ∈ dmaSplit size,
        b.data_size ≤ 8192 ∧ (b.huge = true ↔ 4096 < b.data_size) :=
  dmaSplitGo_spec size size (Nat.le_refl size)

/-- C1: for every sector count n > 0 (and any starting sector),
DmaRequest::new produces exactly ceil(n*512 / 8192) DMA buffers, each
buffer's data_size is at most 8192 bytes, and the data_size fields of
all buffers sum exactly to n*512. -/
theorem dma_request_new_split (sector n : Nat) (h : 0 < n) :
    (DmaRequest.new sector n).buffer.length = (n * 512 + 8191) / 8192
    ∧ ((DmaRequest.new sector n).buffer.all
        (fun b => decide (b.data_size ≤ 8192))) = true
    ∧ (((DmaRequest.new sector n).buffer.map (fun b => b.data_size)).sum
        = n * 512) := by
  obtain ⟨hsum, hlen, hmem⟩ := dmaSplit_spec (n * 512)
  refine ⟨hlen, ?_, hsum⟩
  rw [List.all_eq_true]
  intro b hb
  simpa using (hmem b hb).1

/-- Witness for C1 at n = 20 sectors. -/
theorem dma_request_new_split_witness :
    0 < 20 ∧
      (DmaRequest.new 7 20).buffer.length = (20 * 512 + 8191) / 8192 :=
  ⟨by decide, (dma_request_new_split 7 20 (by decide)).1⟩

/-- C7: every buffer produced by DmaRequest::new is marked huge
exactly when that buffer's own data_size exceeds 4096 bytes (the
source computes the flag from the remaining size before the buffer is
carved off, which coincides with the carved buffer's size). -/
theorem dma_buffer_huge_iff (sector n : Nat) (h : 0 < n) :
    ((DmaRequest.new sector n).buffer.all
      (fun b => b.huge == decide (4096 < b.data_size))) = true := by
  obtain ⟨-, -, hmem⟩ := dmaSplit_spec (n * 512)
  rw [List.all_eq_true]
  intro b hb
  obtain ⟨-, hhuge⟩ := hmem b hb
  have heq : b.huge = decide (4096 < b.data_size) := by
    by_cases hgt : 4096 < b.data_size
    · simp [hgt, hhuge.mpr hgt]
    · cases hb2 : b.huge
      · simp [hgt]
      · exact absurd (hhuge.mp hb2) hgt
  rw [heq]
  exact beq_self_eq_true _

/-- Witness for C7 at n = 9 sectors (one 4608-byte huge buffer). -/
theorem dma_buffer_huge_iff_witness :
    0 < 9 ∧
      ((DmaRequest.new 0 9).buffer.all
        (fun b => b.huge == decide (4096 < b.data_size))) = true :=
  ⟨by decide, dma_buffer_huge_iff 0 9 (by decide)⟩

/-! ## AHCI port engine (drivers/ahci.rs, AhciPortProtected / AhciPort) -/

/-- Model of struct AhciPortProtected: the per-port slot table
(cmds, an array of 32 optional in-flight command references, modelled
as a list of Option Unit since only occupancy matters to the
scheduler) and the free-slot counter.  The hardware register window
address is not modelled. -/
structure AhciPortProtected where
  cmds : List (Option Unit)
  free_cmds : Nat
deriving DecidableEq

/-- Loop body of AhciPortProtected::run_request: while sectors remain
unscheduled, find the first slot whose entry is None, issue up to 128
sectors into it via HbaPort::run_command (which busy-waits until the
hardware clears that slot's command-issue bit, so the command has
completed before the call returns), record the slot as occupied and
decrement free_cmds; when no free slot exists, return the current
offset.  The first argument is an iteration bound; every iteration
schedules at least one sector, so a bound of count - offset
iterations is always sufficient. -/
def runRequestGo : Nat → AhciPortProtected → Nat → Nat → AhciPortProtected × Nat
  | 0, st, _, offset => (st, offset)
  | fuel + 1, st, count, offset =>
    if count - offset = 0 then (st, offset)
    else
      match st.cmds.findIdx? (fun e => e.isNone) with
      | none => (st, offset)
      | some i =>
        let cnt := min (count - offset) 128
        runRequestGo fuel
          { cmds := st.cmds.set i (some ()), free_cmds := st.free_cmds - 1 }
          count (offset + cnt)

/-- AhciPortProtected::run_request(request, offset) for a request of
`count` sectors: returns the updated slot state and the new offset. -/
def AhciPortProtected.run_request (st : AhciPortProtected) (count offset : Nat) :
    AhciPortProtected × Nat :=
  runRequestGo (count - offset) st count offset

/-- Outer loop AhciPort::run_request: under the port lock, repeatedly
call the slot scheduler until the whole request has been dispatched,
then return Some(count * 512).  The first argument bounds the number
of loop iterations; `none` means the loop did not finish within that
many iterations (the source loop has no other exit). -/
def AhciPort.run_request_fuel : Nat → AhciPortProtected → Nat → Nat → Option Nat
  | 0, _, _, _ => none
  | fuel + 1, st, count, offset =>
    if offset < count then
      let r := AhciPortProtected.run_request st count offset
      AhciPort.run_request_fuel fuel r.1 count r.2
    else some (count * 512)

/-- AhciPort::new: all 32 slots empty, 32 free commands. -/
def freshPort : AhciPortProtected :=
  { cmds := List.replicate 32 none, free_cmds := 32 }

/-- The slot state after serving one single-sector request (the
request completes inside run_command before the slot is recorded). -/
def dispatchSingle (st : AhciPortProtected) : AhciPortProtected :=
  (st.run_request 1 0).1

/-- The slot state after serving n single-sector requests in a row. -/
def portAfter : Nat → AhciPortProtected
  | 0 => freshPort
  | n + 1 => dispatchSingle (portAfter n)

/-- Helper: a port whose 32 slots are all recorded occupied offers no
free slot to the scheduler, which therefore returns without touching
the state or the offset. -/
theorem runRequest_allBusy (free count offset : Nat) :
    AhciPortProtected.run_request
        { cmds := List.replicate 32 (some ()), free_cmds := free } count offset
      = ({ cmds := List.replicate 32 (some ()), free_cmds := free }, offset) := by
  have hfind : (List.replicate 32 (some ())).findIdx? (fun e => e.isNone) = none := by
    decide
  unfold AhciPortProtected.run_request
  cases h : count - offset with
  | zero => rfl
  | succ k =>
    rw [runRequestGo]
    simp [h, hfind]

/-- C6 (code bug): after 32 single-sector requests — each of whose
commands has completed, since run_command busy-waits for its
command-issue bit to clear before returning — every slot of the port
is still recorded occupied and free_cmds is 0: no code path ever
resets a cmds entry to None.  A 33rd request then finds no free slot,
the scheduler makes no progress, and the outer run_request loop never
terminates no matter how many iterations it is given. -/
theorem ahci_slots_never_freed :
    portAfter 32 = { cmds := List.replicate 32 (some ()), free_cmds := 0 }
    ∧ ∀ fuel, AhciPort.run_request_fuel fuel (portAfter 32) 1 0 = none := by
  have h32 : portAfter 32
      = { cmds := List.replicate 32 (some ()), free_cmds := 0 } := by decide
  refine ⟨h32, ?_⟩
  intro fuel
  rw [h32]
  induction fuel with
  | zero => rfl
  | succ fuel ih =>
    rw [AhciPort.run_request_fuel]
    simp only [runRequest_allBusy]
    simpa using ih

/-- C8 counterexample: a 20-sector (10 KiB) request does not split
into buffers of 8192 and 1808 bytes. -/
theorem dma_20_sectors_not_1808 :
    ¬ ((DmaRequest.new 0 20).buffer.map (fun b => b.data_size)
        = [8192, 1808]) := by
  decide

/-- C8 amended: a 10 KiB read request of 20 sectors produces exactly
2 DMA buffers whose sizes are 8192 and 2048 bytes, and dispatching it
on a fresh port uses exactly 1 command slot (20 <= 128), leaving 31
free commands. -/
theorem dma_20_sectors_split_one_slot :
    (DmaRequest.new 0 20).buffer.map (fun b => b.data_size) = [8192, 2048]
    ∧ (freshPort.run_request 20 0).2 = 20
    ∧ ((freshPort.run_request 20 0).1.cmds.countP (fun e => e.isSome)) = 1
    ∧ (freshPort.run_request 20 0).1.free_cmds = 31 := by
  decide

/-! ## Port probe (drivers/ahci.rs, HbaSataStatus / HbaPort::probe) -/

/-- HbaSataStatus::device_detection reads bits 0..=3 of the SATA
status register and maps them onto enum HbaPortDd (None = 0,
PresentNotE = 1, PresentAndE = 3, Offline = 4, represented here by
their discriminants); any other raw value panics, modelled as none. -/
def HbaSataStatus.device_detection (ssts : Nat) : Option Nat :=
  match ssts % 16 with
  | 0 => some 0
  | 1 => some 1
  | 3 => some 3
  | 4 => some 4
  | _ => none

/-- HbaSataStatus::interface_power_management reads bits 8..=11 and
maps them onto enum HbaPortIpm (None = 0, Active = 1, the 2/6/8
low-power states, represented here by their discriminants); any other
raw value panics, modelled as none. -/
def HbaSataStatus.interface_power_management (ssts : Nat) : Option Nat :=
  match (ssts >>> 8) % 16 with
  | 0 => some 0
  | 1 => some 1
  | 2 => some 2
  | 6 => some 6
  | 8 => some 8
  | _ => none

/-- HbaPort::probe: decode interface_power_management then
device_detection from the SATA status register; start the port and
return true exactly when (dd, ipm) = (PresentAndE, Active) = (3, 1),
otherwise return false and leave the port unstarted.  A panic while
decoding either field is modelled as none; the start() side effect on
hardware is not modelled, the returned Bool records whether it ran. -/
def HbaPort.probe (ssts : Nat) : Option Bool :=
  match HbaSataStatus.interface_power_management ssts with
  | none => none
  | some ipm =>
    match HbaSataStatus.device_detection ssts with
    | none => none
    | some dd => some (decide (dd = 3 ∧ ipm = 1))

/-- C4 counterexample: for the SATA status value 2 (device-detection
field = 2, a reserved value, power-management field = 0) probe does
not return false — it panics — so it is not the case that every
combination of the two fields other than (3, 1) yields false. -/
theorem probe_reserved_dd_panics :
    HbaPort.probe 2 = none
    ∧ HbaPort.probe 2 ≠ some false
    ∧ HbaPort.probe 2 ≠ some true := by
  decide

/-- C4 amended: whenever both status fields hold values recognized by
the source enums (device-detection in {0,1,3,4} and power-management
in {0,1,2,6,8}), probe returns true if and only if device-detection =
3 (present-and-established) and power-management = 1 (active), and
returns false for every other such combination; unrecognized raw
field values panic instead. -/
theorem probe_recognized_iff (ssts : Nat)
    (hdd : ssts % 16 = 0 ∨ ssts % 16 = 1 ∨ ssts % 16 = 3 ∨ ssts % 16 = 4)
    (hipm : (ssts >>> 8) % 16 = 0 ∨ (ssts >>> 8) % 16 = 1
      ∨ (ssts >>> 8) % 16 = 2 ∨ (ssts >>> 8) % 16 = 6
      ∨ (ssts >>> 8) % 16 = 8) :
    HbaPort.probe ssts
      = some (decide (ssts % 16 = 3 ∧ (ssts >>> 8) % 16 = 1)) := by
  unfold HbaPort.probe HbaSataStatus.device_detection
    HbaSataStatus.interface_power_management
  rcases hdd with h1 | h1 | h1 | h1 <;>
    rcases hipm with h2 | h2 | h2 | h2 | h2 <;>
      simp [h1, h2]

/-- Witness for C4's amended theorem at status 0x103 (dd = 3,
ipm = 1): probe succeeds and enables the port. -/
theorem probe_recognized_iff_witness :
    (259 % 16 = 3 ∧ (259 >>> 8) % 16 = 1)
    ∧ HbaPort.probe 259
        = some (decide (259 % 16 = 3 ∧ (259 >>> 8) % 16 = 1)) :=
  ⟨by decide, probe_recognized_iff 259 (by decide) (by decide)⟩

/-! ## Block-device read path (drivers/ahci.rs, AhciPort::read) -/

/-- Model of a Rust slice assignment
dest[pos..pos + data.len()].copy_from_slice(data): the bytes of dest
from pos onwards are replaced by data, the rest kept. -/
def listWriteAt (dest : List Nat) (pos : Nat) (data : List Nat) : List Nat :=
  dest.take pos ++ data ++ dest.drop (pos + data.length)

/-- Loop of DmaRequest::copy_into: walk the buffer list in order,
copying min(remaining, 0x2000) bytes from each DMA buffer (its
contents, written by the device, are modelled as a byte function)
into the destination at the running offset.  Note the copy length is
taken from `remaining`, not from the buffer's data_size, exactly as
in the source. -/
def copyIntoGo : List (Nat → Nat) → List Nat → Nat → Nat → List Nat
  | [], into, _, _ => into
  | b :: rest, into, offset, remaining =>
    let count := min remaining 0x2000
    copyIntoGo rest (listWriteAt into offset ((List.range count).map b))
      (offset + count) (remaining - count)

/-- DmaRequest::copy_into(into): offset starts at 0 and remaining at
into.len(). -/
def DmaRequest.copy_into (contents : List (Nat → Nat)) (into : List Nat) :
    List Nat :=
  copyIntoGo contents into 0 into.length

/-- AhciPort::read, lines 730-741: build the DMA request, run it, and
only if the run returned Some copy the DMA contents into the caller's
buffer; the run result is returned as is.  The outcome of
run_request and the device-written DMA bytes are parameters of the
model (they come from hardware); the function returns the result
together with the final state of the caller's buffer. -/
def AhciPort.read (run_result : Option Nat) (contents : List (Nat → Nat))
    (buffer : List Nat) : Option Nat × List Nat :=
  if run_result.isSome then (run_result, DmaRequest.copy_into contents buffer)
  else (run_result, buffer)

/-- C5: when the underlying request fails (run_request returns none),
AhciPort::read returns none and leaves every byte of the
caller-supplied destination buffer untouched. -/
theorem ahci_read_failure_preserves_buffer (run_result : Option Nat)
    (contents : List (Nat → Nat)) (buffer : List Nat)
    (h : run_result = none) :
    AhciPort.read run_result contents buffer = (none, buffer) := by
  subst h
  rfl

/-- Witness for C5 on a concrete failed read. -/
theorem ahci_read_failure_preserves_buffer_witness :
    AhciPort.read none [fun j => j] [5, 6, 7] = (none, [5, 6, 7]) :=
  ahci_read_failure_preserves_buffer none [fun j => j] [5, 6, 7] rfl

/-! ## Ext2 volume (fs/ext2/mod.rs) -/

/-- Model of struct SuperBlock, keeping the fields the modelled
operations read (magic, inode_size, log_block_size, blocks_count,
blocks_per_group, inodes_per_group); the remaining on-disk fields are
never consulted by the code under verification and are omitted. -/
structure SuperBlock where
  magic : Nat
  inode_size : Nat
  log_block_size : Nat
  blocks_count : Nat
  blocks_per_group : Nat
  inodes_per_group : Nat
deriving DecidableEq

/-- SuperBlock::block_size = 1024 << log_block_size. -/
def SuperBlock.block_size (sb : SuperBlock) : Nat :=
  1024 <<< sb.log_block_size

/-- SuperBlock::bgdt_len = ceil(blocks_count / blocks_per_group)
(utils::CeilDiv). -/
def SuperBlock.bgdt_len (sb : SuperBlock) : Nat :=
  (sb.blocks_count + sb.blocks_per_group - 1) / sb.blocks_per_group

/-- SuperBlock::bgdt_sector: 4 for 1 KiB blocks, block_size/512
otherwise.  The source's third match arm (block sizes below 1024)
panics as unreachable; it indeed cannot fire because block_size is
1024 << log_block_size >= 1024, so the model keeps the two live
arms. -/
def SuperBlock.bgdt_sector (sb : SuperBlock) : Nat :=
  if sb.block_size = 1024 then 4 else sb.block_size / 512

/-- The block size is always positive (it is 1024 * 2 ^ log). -/
theorem SuperBlock.block_size_pos (sb : SuperBlock) : 0 < sb.block_size := by
  unfold SuperBlock.block_size
  rw [Nat.shiftLeft_eq]
  positivity

/-- Model of struct GroupDescriptor (the 32-byte on-disk record). -/
structure GroupDescriptor where
  block_bitmap : Nat
  inode_bitmap : Nat
  inode_table : Nat
  free_blocks_count : Nat
  free_inodes_count : Nat
  used_dirs_count : Nat
deriving DecidableEq

/-- The two block-device reads Ext2::new performs, as an oracle: the
decoded result of read_block(2, superblock bytes) and, for a given
starting sector, the decoded result of read_block on the
group-descriptor table; none models a failed device read. -/
structure Ext2BlockDevice where
  read_super : Option SuperBlock
  read_bgdt : Nat → Option (List GroupDescriptor)

/-- Model of struct Ext2 (the mounted volume): its superblock and
group-descriptor table.  The block-device handle and the cyclic
self-reference are not data and are omitted. -/
structure Ext2 where
  superblock : SuperBlock
  bgdt : List GroupDescriptor
deriving DecidableEq

/-- Outcome of Ext2::new: the source returns Option<Arc<Ext2>> but
can also panic in the inode-size assertion, so the model separates
the three cases. -/
inductive MountResult where
  | panicked
  | absent
  | mounted (fs : Ext2)
deriving DecidableEq

/-- Ext2::new(block): read the superblock from sector 2 (propagating
a failed read as absence), return absence when the magic is not
0xEF53, assert the on-disk inode size is 128 (panicking otherwise),
then read the group-descriptor table from bgdt_sector (again
propagating a failed read) and produce the volume. -/
def Ext2.new (dev : Ext2BlockDevice) : MountResult :=
  match dev.read_super with
  | none => MountResult.absent
  | some sb =>
    if sb.magic ≠ 0xEF53 then MountResult.absent
    else if sb.inode_size ≠ 128 then MountResult.panicked
    else
      match dev.read_bgdt sb.bgdt_sector with
      | none => MountResult.absent
      | some bgdt => MountResult.mounted { superblock := sb, bgdt := bgdt }

/-- C3: mounting a block device whose superblock has a magic field
different from 0xEF53 returns absence — no Ext2 volume object is
produced (and no panic occurs). -/
theorem ext2_new_bad_magic (dev : Ext2BlockDevice) (sb : SuperBlock)
    (hread : dev.read_super = some sb) (hmagic : sb.magic ≠ 0xEF53) :
    Ext2.new dev = MountResult.absent := by
  unfold Ext2.new
  rw [hread]
  simp [hmagic]

/-- Concrete superblock with a wrong magic value, for the C3
witness. -/
def sbBadW : SuperBlock :=
  { magic := 0x1234, inode_size := 128, log_block_size := 0,
    blocks_count := 8, blocks_per_group := 8, inodes_per_group := 8 }

/-- Concrete block device presenting `sbBadW`, for the C3 witness. -/
def devBadW : Ext2BlockDevice :=
  { read_super := some sbBadW, read_bgdt := fun _ => some [] }

/-- Witness for C3 on a concrete device with magic 0x1234. -/
theorem ext2_new_bad_magic_witness :
    (devBadW.read_super = some sbBadW ∧ sbBadW.magic ≠ 0xEF53)
    ∧ Ext2.new devBadW = MountResult.absent :=
  ⟨⟨by decide, by decide⟩,
    ext2_new_bad_magic devBadW sbBadW (by decide) (by decide)⟩

/-! ## Ext2 file reads (fs/ext2/mod.rs, INode::read_at) -/

/-- Checked usize subtraction: the Rust expression a - b panics on
underflow (debug overflow check), modelled as none. -/
def checkedSub (a b : Nat) : Option Nat :=
  if b ≤ a then some (a - b) else none

/-- Model of the on-disk inode record (struct DiskINode), keeping the
fields read by the modelled operations: the recorded file size
(size_lower) and the 15 direct data-block pointers (data_ptr, as a
15-element list); timestamps, type/permission bits and the other
fields are never consulted here and are omitted. -/
structure DiskINode where
  size_lower : Nat
  data_ptr : List Nat
deriving DecidableEq

/-- The chunk computation inside INode::read_at's loop: chunk starts
as count - progress and is clamped to block_size - loc, where loc is
the intra-block offset of the current position. -/
def readChunk (block_size count progress offset : Nat) : Nat :=
  if count - progress > block_size - (offset + progress) % block_size
  then block_size - (offset + progress) % block_size
  else count - progress

/-- When the block size is positive and bytes remain, the chunk is at
least 1 and at most the remaining byte count. -/
theorem readChunk_bounds (block_size count progress offset : Nat)
    (hbs : 0 < block_size) (h : progress < count) :
    0 < readChunk block_size count progress offset
    ∧ readChunk block_size count progress offset ≤ count - progress := by
  have hloc : (offset + progress) % block_size < block_size :=
    Nat.mod_lt _ hbs
  unfold readChunk
  split <;> omega

/-- Loop of INode::read_at: while progress < count, locate the block
spanned by the current position through the inode's direct pointer
table (indexing data_ptr out of bounds panics, modelled as none),
read the chunk from the block device into a fresh buffer (the device
is modelled as a total byte function; the source ignores the device
read's Option result), copy it into the destination at progress, and
advance.  The first argument is an iteration bound; every iteration
advances progress by at least one byte, so a bound of count - progress
iterations is always sufficient (insufficient fuel yields none, which
is unreachable from the wrapper). -/
def readAtGo (disk : Nat → Nat) (block_size : Nat) (data_ptr : List Nat)
    (offset count : Nat) : Nat → Nat → List Nat → Option (List Nat)
  | 0, progress, buffer => if progress < count then none else some buffer
  | fuel + 1, progress, buffer =>
    if progress < count then
      match data_ptr[(offset + progress) / block_size]? with
      | none => none
      | some block_index =>
        readAtGo disk block_size data_ptr offset count fuel
          (progress + readChunk block_size count progress offset)
          (listWriteAt buffer progress
            ((List.range (readChunk block_size count progress offset)).map
              (fun j => disk (block_index * block_size
                + (offset + progress) % block_size + j))))
    else some buffer

/-- INode::read_at(offset, buffer): count = min(size_lower - offset,
buffer.len()) — the subtraction panics when offset exceeds the
recorded size — then the loop fills the destination and Ok(count) is
returned together with the final destination contents. -/
def INode.read_at (disk : Nat → Nat) (sb : SuperBlock) (inode : DiskINode)
    (offset : Nat) (buffer : List Nat) : Option (Nat × List Nat) :=
  match checkedSub inode.size_lower offset with
  | none => none
  | some avail =>
    match readAtGo disk sb.block_size inode.data_ptr offset
        (min avail buffer.length) (min avail buffer.length) 0 buffer with
    | none => none
    | some buf => some (min avail buffer.length, buf)

/-- Writing data at pos keeps the destination length, provided the
write fits (which the Rust copy_from_slice requires on pain of
panic). -/
theorem listWriteAt_length (dest data : List Nat) (pos : Nat)
    (h : pos + data.length ≤ dest.length) :
    (listWriteAt dest pos data).length = dest.length := by
  simp [listWriteAt]
  omega

/-- Writing data at pos leaves every index at or beyond
pos + data.length unchanged. -/
theorem listWriteAt_getElem_ge (dest data : List Nat) (pos i : Nat)
    (hpos : pos ≤ dest.length) (hi : pos + data.length ≤ i) :
    (listWriteAt dest pos data)[i]? = dest[i]? := by
  unfold listWriteAt
  have htake : (dest.take pos).length = pos := by
    rw [List.length_take]
    omega
  rw [List.append_assoc,
    List.getElem?_append_right (by omega : (dest.take pos).length ≤ i),
    htake,
    List.getElem?_append_right (by omega : data.length ≤ i - pos),
    List.getElem?_drop]
  congr 1
  omega

/-- Frame property of the read_at loop: a successful run preserves
the destination's length and never touches an index at or beyond
count. -/
theorem readAtGo_frame (disk : Nat → Nat) (block_size : Nat)
    (data_ptr : List Nat) (offset count : Nat) (hbs : 0 < block_size) :
    ∀ fuel progress buffer buf2,
      count ≤ buffer.length →
      readAtGo disk block_size data_ptr offset count fuel progress buffer
        = some buf2 →
      buf2.length = buffer.length ∧ ∀ i, count ≤ i → buf2[i]? = buffer[i]? := by
  intro fuel
  induction fuel with
  | zero =>
    intro progress buffer buf2 hlen hrun
    rw [readAtGo] at hrun
    by_cases h : progress < count
    · rw [if_pos h] at hrun
      exact absurd hrun (by simp)
    · rw [if_neg h] at hrun
      obtain rfl := Option.some.inj hrun
      exact ⟨rfl, fun i _ => rfl⟩
  | succ fuel ih =>
    intro progress buffer buf2 hlen hrun
    rw [readAtGo] at hrun
    by_cases h : progress < count
    · rw [if_pos h] at hrun
      cases hdp : data_ptr[(offset + progress) / block_size]? with
      | none =>
        rw [hdp] at hrun
        exact absurd hrun (by simp)
      | some block_index =>
        rw [hdp] at hrun
        obtain ⟨hck1, hck2⟩ := readChunk_bounds block_size count progress offset hbs h
        have hdata : ((List.range (readChunk block_size count progress offset)).map
            (fun j => disk (block_index * block_size
              + (offset + progress) % block_size + j))).length
            = readChunk block_size count progress offset := by
          simp
        have hfit : progress + readChunk block_size count progress offset
            ≤ buffer.length := by omega
        have hlen2 : count ≤ (listWriteAt buffer progress
            ((List.range (readChunk block_size count progress offset)).map
              (fun j => disk (block_index * block_size
                + (offset + progress) % block_size + j)))).length := by
          rw [listWriteAt_length _ _ _ (by rw [hdata]; omega)]
          exact hlen
        obtain ⟨hlen3, hframe⟩ := ih _ _ _ hlen2 hrun
        refine ⟨?_, ?_⟩
        · rw [hlen3, listWriteAt_length _ _ _ (by rw [hdata]; omega)]
        · intro i hi
          rw [hframe i hi,
            listWriteAt_getElem_ge _ _ _ _ (by omega) (by rw [hdata]; omega)]
    · rw [if_neg h] at hrun
      obtain rfl := Option.some.inj hrun
      exact ⟨rfl, fun i _ => rfl⟩

/-- C2: whenever INode::read_at(offset, buffer) returns (its
precondition offset <= size holding, see the companion underflow
theorem), the returned byte count is exactly
min(buffer.len(), size - offset), the destination keeps its length,
and no byte of the destination at an index at or beyond that count is
modified by the call. -/
theorem read_at_spec (disk : Nat → Nat) (sb : SuperBlock) (inode : DiskINode)
    (offset : Nat) (buffer : List Nat) (c : Nat) (buf2 : List Nat)
    (hoff : offset ≤ inode.size_lower)
    (hres : INode.read_at disk sb inode offset buffer = some (c, buf2)) :
    c = min buffer.length (inode.size_lower - offset)
    ∧ buf2.length = buffer.length
    ∧ ∀ i, c ≤ i → buf2[i]? = buffer[i]? := by
  unfold INode.read_at checkedSub at hres
  rw [if_pos hoff] at hres
  dsimp only at hres
  cases hgo : readAtGo disk sb.block_size inode.data_ptr offset
      (min (inode.size_lower - offset) buffer.length)
      (min (inode.size_lower - offset) buffer.length) 0 buffer with
  | none =>
    rw [hgo] at hres
    exact absurd hres (by simp)
  | some buf =>
    rw [hgo] at hres
    obtain ⟨hc, hbuf⟩ := Prod.mk.injEq .. ▸ Option.some.inj hres
    obtain ⟨hl, hf⟩ := readAtGo_frame disk sb.block_size inode.data_ptr offset
      (min (inode.size_lower - offset) buffer.length) sb.block_size_pos
      (min (inode.size_lower - offset) buffer.length) 0 buffer buf
      (Nat.min_le_right _ _) hgo
    subst hbuf
    refine ⟨?_, hl, ?_⟩
    · omega
    · intro i hi
      exact hf i (by omega)

/-- Concrete disk, superblock and inode for the read_at witnesses. -/
def diskW : Nat → Nat := fun a => a % 256

/-- Concrete valid superblock (1 KiB blocks) for the witnesses. -/
def sbW : SuperBlock :=
  { magic := 0xEF53, inode_size := 128, log_block_size := 0,
    blocks_count := 8, blocks_per_group := 8, inodes_per_group := 8 }

/-- Concrete 4-byte inode whose data sits in block 0. -/
def inoW : DiskINode :=
  { size_lower := 4, data_ptr := List.replicate 15 0 }

/-- Witness for C2: reading 6 bytes at offset 2 of a 4-byte file
returns 2 = min(6, 4 - 2) and leaves bytes 2..5 of the destination
untouched. -/
theorem read_at_spec_witness :
    (2 ≤ inoW.size_lower
      ∧ INode.read_at diskW sbW inoW 2 [9, 9, 9, 9, 9, 9]
          = some (2, [2, 3, 9, 9, 9, 9]))
    ∧ 2 = min 6 (inoW.size_lower - 2) :=
  ⟨⟨by decide, by decide⟩,
    (read_at_spec diskW sbW inoW 2 [9, 9, 9, 9, 9, 9] 2 [2, 3, 9, 9, 9, 9]
      (by decide) (by decide)).1⟩

/-- C10: read_at has the precondition offset <= size: for every call
with offset > size_lower the length computation
min(size - offset, buffer.len()) underflows in the subtraction before
any clamping could happen, so the call errors (panics) and returns no
clamped zero-length result. -/
theorem read_at_underflow (disk : Nat → Nat) (sb : SuperBlock)
    (inode : DiskINode) (offset : Nat) (buffer : List Nat)
    (h : inode.size_lower < offset) :
    INode.read_at disk sb inode offset buffer = none := by
  have hn : ¬ offset ≤ inode.size_lower := by omega
  simp [INode.read_at, checkedSub, hn]

/-- Witness for C10: offset 5 on the 4-byte inode. -/
theorem read_at_underflow_witness :
    inoW.size_lower < 5
    ∧ INode.read_at diskW sbW inoW 5 [9] = none :=
  ⟨by decide, read_at_underflow diskW sbW inoW 5 [9] (by decide)⟩

/-! ## Ext2 directory iteration (fs/ext2/mod.rs, DirEntryIter) -/

/-- The inode field of the on-disk DiskDirEntry (u32, little-endian,
repr(C, packed)) read from the disk at byte address a. -/
def DiskDirEntry.inode_at (disk : Nat → Nat) (a : Nat) : Nat :=
  disk a + 256 * disk (a + 1) + 65536 * disk (a + 2)
    + 16777216 * disk (a + 3)

/-- The entry_size field of the on-disk DiskDirEntry (u16 at byte
offset 4, little-endian). -/
def DiskDirEntry.entry_size_at (disk : Nat → Nat) (a : Nat) : Nat :=
  disk (a + 4) + 256 * disk (a + 5)

/-- One call of DirEntryIter::next: stop when fewer than 8 bytes
(size_of DiskDirEntry) remain before the inode's recorded size;
otherwise read the entry header at data_ptr[0] * block_size +
offset, advance the iterator's offset by the entry's own entry_size
field, and produce the entry via make_dir_entry — whose inode-cache
resolution is abstracted by the oracle `resolve` on the entry's inode
number; a failed resolution ends the iteration (None), as in the
source.  Returns the produced entry's inode number paired with the
iterator offset after the call.  The name bytes are also read by the
source but influence neither the control flow nor the offset, so they
are not modelled. -/
def DirEntryIter.next (disk : Nat → Nat) (sb : SuperBlock)
    (inode : DiskINode) (resolve : Nat → Bool) (offset : Nat) :
    Option (Nat × Nat) :=
  if offset + 8 > inode.size_lower then none
  else
    match inode.data_ptr[0]? with
    | none => none
    | some d0 =>
      if resolve (DiskDirEntry.inode_at disk (d0 * sb.block_size + offset))
      then some
        (DiskDirEntry.inode_at disk (d0 * sb.block_size + offset),
          offset + DiskDirEntry.entry_size_at disk (d0 * sb.block_size + offset))
      else none

/-- The iterator offset after k produced entries: none as soon as
some call of next produces nothing. -/
def dirIterSteps (disk : Nat → Nat) (sb : SuperBlock) (inode : DiskINode)
    (resolve : Nat → Bool) : Nat → Nat → Option Nat
  | 0, offset => some offset
  | k + 1, offset =>
    match DirEntryIter.next disk sb inode resolve offset with
    | none => none
    | some r => dirIterSteps disk sb inode resolve k r.2

/-- C9: when the directory entry at the iterator's offset has
entry_size = 0, at least 8 bytes remain before the inode's recorded
size, and the entry resolves, DirEntryIter::next produces an entry
without advancing: after any number of iterations the iterator is
still at the same offset, re-reading the same entry, so iteration
(driving lookup and dirent) does not terminate. -/
theorem dir_iter_zero_entry_size_loops (disk : Nat → Nat)
    (sb : SuperBlock) (inode : DiskINode) (resolve : Nat → Bool)
    (offset d0 : Nat)
    (hd0 : inode.data_ptr[0]? = some d0)
    (hsz : offset + 8 ≤ inode.size_lower)
    (hes : DiskDirEntry.entry_size_at disk (d0 * sb.block_size + offset) = 0)
    (hres : resolve (DiskDirEntry.inode_at disk (d0 * sb.block_size + offset))
      = true) :
    ∀ k, dirIterSteps disk sb inode resolve k offset = some offset := by
  have hnext : DirEntryIter.next disk sb inode resolve offset
      = some (DiskDirEntry.inode_at disk (d0 * sb.block_size + offset),
          offset) := by
    unfold DirEntryIter.next
    rw [if_neg (by omega), hd0]
    simp [hres, hes]
  intro k
  induction k with
  | zero => rfl
  | succ k ih =>
    rw [dirIterSteps, hnext]
    exact ih

/-- Concrete directory inode (16 recorded bytes, data in block 0) for
the C9 witness. -/
def inoDirW : DiskINode :=
  { size_lower := 16, data_ptr := List.replicate 15 0 }

/-- Witness for C9: on an all-zero disk (entry_size = 0 everywhere)
five iterations leave the iterator at offset 0. -/
theorem dir_iter_zero_entry_size_loops_witness :
    (inoDirW.data_ptr[0]? = some 0
      ∧ 0 + 8 ≤ inoDirW.size_lower
      ∧ DiskDirEntry.entry_size_at (fun _ => 0) (0 * sbW.block_size + 0) = 0)
    ∧ dirIterSteps (fun _ => 0) sbW inoDirW (fun _ => true) 5 0 = some 0 :=
  ⟨⟨by decide, by decide, by decide⟩,
    dir_iter_zero_entry_size_loops (fun _ => 0) sbW inoDirW (fun _ => true)
      0 0 (by decide) (by decide) (by decide) (by decide) 5⟩
